import Mathlib

/-!
Verification of the Graphing-Game repository core: the equation-sanitizing
parser, the adaptive curve sampler, the ball/curve sliding physics and the
star-collection routine.

Modelling conventions.

* JavaScript numbers are idealized as exact arithmetic: the string-free
  numeric code is embedded over `ℚ` where the source only uses field
  operations and comparisons, and over `ℝ` where it takes square roots
  (`Math.hypot`, `normalize`).  An evaluator that may throw, or return
  `NaN`/`Infinity`, is modelled as a function into `Option ℚ` with `none`
  standing for "throws or yields a non-finite value".
* `Math.hypot a b ≤ c` (resp. `>`), with both sides nonnegative, is
  modelled over `ℚ` as the equivalent `a^2 + b^2 ≤ c^2` comparison where a
  computable definition is wanted; over `ℝ` the square root is kept.
* The mutable `pts`/`out` arrays of the sampler are threaded as explicit
  accumulator lists, kept in reverse order (the list head is the most
  recently pushed entry, i.e. the source's `pts[pts.length - 1]`); the
  final results are reversed back to source order.
* The source's recursion depth counter `depth` (bounded by
  `MAX_DEPTH = 12`) is re-parameterized as the remaining budget
  `fuel = MAX_DEPTH - depth`, so `depth >= MAX_DEPTH` is `fuel = 0` and
  the initial call `depth = 0` is `fuel = 12`.  String-scanning passes use
  a fuel bounded by the string length; every step consumes at least one
  character, so the fuel never runs out on the actual scan.
-/

namespace GraphGame

/-! ## Adaptive curve sampler (equation.js: `sampleCurve`, `sampleCurveY`)

A polyline entry is either a sample point or a break marker (`null` in the
source). -/

/-- A polyline entry: `some (x, y)` is a stored sample point, `none` is the
source's `null` break marker. -/
abbrev Entry := Option (ℚ × ℚ)

/-- Evaluators `f`/`g` handed to the samplers: `none` models a thrown
exception or a `NaN`/`Infinity` result (rejected by `Number.isFinite`). -/
abbrev Evaluator := ℚ → Option ℚ

/-- Optional domain predicate `cond(x, y)`; the inner `Option` models a
predicate that throws (caught by the `try` of `safeEval`). -/
abbrev Cond := Option (ℚ → ℚ → Option Bool)

/-- `safeEval` of `sampleCurve` (equation.js lines 246-256): evaluate
`f x`, reject non-finite values, values of magnitude above `MAX_Y = 1e6`
and points failing the predicate; any exception yields `null`. -/
def safeEval (f : Evaluator) (cond : Cond) (x : ℚ) : Option ℚ :=
  match f x with
  | none => none
  | some y =>
    if |y| > 1e6 then none
    else
      match cond with
      | none => some y
      | some c =>
        match c x y with
        | none => none
        | some b => if b then some y else none

/-- `safeEval` of `sampleCurveY` (equation.js lines 67-77): same checks
for `x = g(y)`, with the predicate applied as `cond(g(y), y)`. -/
def safeEvalY (g : Evaluator) (cond : Cond) (y : ℚ) : Option ℚ :=
  match g y with
  | none => none
  | some x =>
    if |x| > 1e6 then none
    else
      match cond with
      | none => some x
      | some c =>
        match c x y with
        | none => none
        | some b => if b then some x else none

/-- `addBreak` (equation.js lines 258-260): push a `null` unless the array
is empty with a trailing `null`; the accumulator is reversed, so the
source's `pts[pts.length - 1]` is the head. -/
def addBreak (pts : List Entry) : List Entry :=
  match pts with
  | [] => none :: []
  | none :: _ => pts
  | some _ :: _ => none :: pts

/-- The accept-branch pushes of `subdivide` (equation.js lines 299-306):
push the left endpoint after an empty array or a break, then the midpoint
(deduplicated against the last stored point by `|xm - last.x| > 1e-9`),
then the right endpoint when `|x1 - xm| > 1e-9`. -/
def acceptPush (x0 y0 xm ym x1 y1 : ℚ) (pts : List Entry) : List Entry :=
  let pts1 :=
    match pts with
    | [] => some (x0, y0) :: pts
    | none :: _ => some (x0, y0) :: pts
    | some _ :: _ => pts
  let pts2 :=
    match pts1 with
    | some l :: _ => if |xm - l.1| > 1e-9 then some (xm, ym) :: pts1 else pts1
    | _ => some (xm, ym) :: pts1
  if |x1 - xm| > 1e-9 then some (x1, y1) :: pts2 else pts2

/-- The accept-branch pushes of `sampleCurveY`'s `subdivide` (equation.js
lines 106-111); points are `{x: value, y: input}` and the midpoint is
deduplicated on the `y` coordinate. -/
def acceptPushY (y0 x0 ym xm y1 x1 : ℚ) (pts : List Entry) : List Entry :=
  let pts1 :=
    match pts with
    | [] => some (x0, y0) :: pts
    | none :: _ => some (x0, y0) :: pts
    | some _ :: _ => pts
  let pts2 :=
    match pts1 with
    | some l :: _ => if |ym - l.2| > 1e-9 then some (xm, ym) :: pts1 else pts1
    | _ => some (xm, ym) :: pts1
  if |y1 - ym| > 1e-9 then some (x1, y1) :: pts2 else pts2

/-- `subdivide` of `sampleCurve` (equation.js lines 262-307).  `fuel` is
the remaining recursion budget `MAX_DEPTH - depth`.  The linear
interpolation uses Lean's `0`-valued division when `x1 = x0`; that case is
only reachable with `xm = x0 = x1`, where both the source (whose `err` is
then `NaN`, never `> TOL`) and this model take the accept branch. -/
def subdivide (f : Evaluator) (cond : Cond) :
    Nat → ℚ → Option ℚ → ℚ → Option ℚ → List Entry → List Entry
  | fuel, x0, y0, x1, y1, pts =>
    match y0, y1 with
    | none, none => addBreak pts
    | none, some v1 =>
      match fuel with
      | 0 => addBreak pts
      | fuel' + 1 =>
        let xm := (x0 + x1) / 2
        let ym := safeEval f cond xm
        subdivide f cond fuel' xm ym x1 (some v1)
          (subdivide f cond fuel' x0 none xm ym pts)
    | some v0, none =>
      match fuel with
      | 0 => addBreak pts
      | fuel' + 1 =>
        let xm := (x0 + x1) / 2
        let ym := safeEval f cond xm
        subdivide f cond fuel' xm ym x1 none
          (subdivide f cond fuel' x0 (some v0) xm ym pts)
    | some v0, some v1 =>
      let xm := (x0 + x1) / 2
      match safeEval f cond xm with
      | none =>
        match fuel with
        | 0 => addBreak pts
        | fuel' + 1 =>
          subdivide f cond fuel' xm none x1 (some v1)
            (subdivide f cond fuel' x0 (some v0) xm none pts)
      | some vm =>
        let yl := v0 + (v1 - v0) * ((xm - x0) / (x1 - x0))
        let err := |vm - yl|
        let steep := |v1 - v0| > 10 / max 1e-6 (x1 - x0)
        match fuel with
        | 0 => acceptPush x0 v0 xm vm x1 v1 pts
        | fuel' + 1 =>
          if err > 1e-2 ∨ steep then
            subdivide f cond fuel' xm (some vm) x1 (some v1)
              (subdivide f cond fuel' x0 (some v0) xm (some vm) pts)
          else acceptPush x0 v0 xm vm x1 v1 pts

/-- `subdivide` of `sampleCurveY` (equation.js lines 81-112): the two
invalid-endpoint cases are merged in the source; the error test compares
`x`-values along the `y` axis. -/
def subdivideY (g : Evaluator) (cond : Cond) :
    Nat → ℚ → Option ℚ → ℚ → Option ℚ → List Entry → List Entry
  | fuel, y0, x0, y1, x1, pts =>
    match x0, x1 with
    | none, none => addBreak pts
    | none, some v1 =>
      match fuel with
      | 0 => addBreak pts
      | fuel' + 1 =>
        let ym := (y0 + y1) / 2
        let xm := safeEvalY g cond ym
        subdivideY g cond fuel' ym xm y1 (some v1)
          (subdivideY g cond fuel' y0 none ym xm pts)
    | some v0, none =>
      match fuel with
      | 0 => addBreak pts
      | fuel' + 1 =>
        let ym := (y0 + y1) / 2
        let xm := safeEvalY g cond ym
        subdivideY g cond fuel' ym xm y1 none
          (subdivideY g cond fuel' y0 (some v0) ym xm pts)
    | some v0, some v1 =>
      let ym := (y0 + y1) / 2
      match safeEvalY g cond ym with
      | none =>
        match fuel with
        | 0 => addBreak pts
        | fuel' + 1 =>
          subdivideY g cond fuel' ym none y1 (some v1)
            (subdivideY g cond fuel' y0 (some v0) ym none pts)
      | some vm =>
        let xl := v0 + (v1 - v0) * ((ym - y0) / (y1 - y0))
        let err := |vm - xl|
        let steep := |v1 - v0| > 10 / max 1e-6 (y1 - y0)
        match fuel with
        | 0 => acceptPushY y0 v0 ym vm y1 v1 pts
        | fuel' + 1 =>
          if err > 1e-2 ∨ steep then
            subdivideY g cond fuel' ym (some vm) y1 (some v1)
              (subdivideY g cond fuel' y0 (some v0) ym (some vm) pts)
          else acceptPushY y0 v0 ym vm y1 v1 pts

/-- The coarse stepping loop of `sampleCurve` (equation.js lines 310-319),
with an explicit iteration budget; each iteration advances `x1` by
`coarse` (clamped at `xMax`) and stops once `x1` reaches `xMax`. -/
def sampleLoop (f : Evaluator) (cond : Cond) (xMax coarse : ℚ) :
    Nat → ℚ → Option ℚ → ℚ → List Entry → List Entry
  | 0, _, _, _, pts => pts
  | fuel + 1, x0, y0, x1, pts =>
    if x0 < xMax + 1e-9 then
      let y1 := safeEval f cond x1
      let pts' := subdivide f cond 12 x0 y0 x1 y1 pts
      if x1 ≥ xMax then pts'
      else sampleLoop f cond xMax coarse fuel x1 y1 (min (x1 + coarse) xMax) pts'
    else pts

/-- The coarse stepping loop of `sampleCurveY` (equation.js lines 114-123). -/
def sampleLoopY (g : Evaluator) (cond : Cond) (yMax coarse : ℚ) :
    Nat → ℚ → Option ℚ → ℚ → List Entry → List Entry
  | 0, _, _, _, pts => pts
  | fuel + 1, y0, x0, y1, pts =>
    if y0 < yMax + 1e-9 then
      let x1 := safeEvalY g cond y1
      let pts' := subdivideY g cond 12 y0 x0 y1 x1 pts
      if y1 ≥ yMax then pts'
      else sampleLoopY g cond yMax coarse fuel y1 x1 (min (y1 + coarse) yMax) pts'
    else pts

/-- The final clean-up loop shared verbatim by `sampleCurve` (lines
322-332) and `sampleCurveY` (lines 125-133): drop breaks that would be
leading or doubled and drop points within Euclidean distance `1e-9` of the
previous stored point (`Math.hypot dx dy > 1e-9` is the `ℚ`-comparison
`dx^2 + dy^2 > 1e-18`).  The input is in source order, the accumulator
`out` is reversed. -/
def cleanup : List Entry → List Entry → List Entry
  | [], out => out
  | none :: rest, out =>
    cleanup rest
      (match out with
       | [] => out
       | none :: _ => out
       | some _ :: _ => none :: out)
  | some p :: rest, out =>
    cleanup rest
      (match out with
       | [] => some p :: out
       | none :: _ => some p :: out
       | some l :: _ =>
         if (p.1 - l.1) ^ 2 + (p.2 - l.2) ^ 2 > 1e-18 then some p :: out else out)

/-- Iteration budget for the coarse loop: for `coarse > 0` the numerator
bound `|((hi - lo) / coarse).num| + 2` dominates the number of `x1`
advances of the source loop, and surplus budget is harmless because the
loop stops on its own exit tests.  (For `coarse ≤ 0` the source loop does
not terminate unless it exits immediately; the budget then merely
truncates.) -/
def loopFuel (lo hi coarse : ℚ) : Nat := ((hi - lo) / coarse).num.natAbs + 2

/-- `sampleCurve` (equation.js lines 238-334). -/
def sampleCurve (f : Evaluator) (xMin xMax : ℚ) (step : ℚ) (cond : Cond) :
    List Entry :=
  let coarse := max step ((xMax - xMin) / 64)
  let y0 := safeEval f cond xMin
  let pts := sampleLoop f cond xMax coarse (loopFuel xMin xMax coarse)
    xMin y0 (min (xMin + coarse) xMax) []
  (cleanup pts.reverse []).reverse

/-- `sampleCurveY` (equation.js lines 60-135). -/
def sampleCurveY (g : Evaluator) (yMin yMax : ℚ) (step : ℚ) (cond : Cond) :
    List Entry :=
  let coarse := max step ((yMax - yMin) / 64)
  let x0 := safeEvalY g cond yMin
  let pts := sampleLoopY g cond yMax coarse (loopFuel yMin yMax coarse)
    yMin x0 (min (yMin + coarse) yMax) []
  (cleanup pts.reverse []).reverse

/-- The domain predicate holds at a sample, in the sense of `safeEval`:
absent, or evaluating without an exception to `true`. -/
def condHolds (cond : Cond) (x y : ℚ) : Prop :=
  match cond with
  | none => True
  | some c => c x y = some true

/-- Adjacency invariant of a cleaned-up polyline: two consecutive stored
points are more than `1e-9` world units apart (squared comparison over
`ℚ`), and two consecutive break markers never occur. -/
def stepOK : Entry → Entry → Prop
  | none, none => False
  | some p, some q => (q.1 - p.1) ^ 2 + (q.2 - p.2) ^ 2 > 1e-18
  | _, _ => True

/-- Every stored point of the accumulator is a successful `safeEval`
sample. -/
def PointsOK (f : Evaluator) (cond : Cond) (pts : List Entry) : Prop :=
  ∀ x y : ℚ, some (x, y) ∈ pts → safeEval f cond x = some y

/-- Every stored point of the accumulator is a successful `safeEvalY`
sample (points are `(g y, y)`). -/
def PointsOKY (g : Evaluator) (cond : Cond) (pts : List Entry) : Prop :=
  ∀ x y : ℚ, some (x, y) ∈ pts → safeEvalY g cond y = some x

/-- Demo evaluator used by concrete witnesses: the total affine map
`x ↦ x + 1` (a user function with no singularities). -/
def demoEval : Evaluator := fun x => some (x + 1)

/-! ## Expression sanitizing and validation (equation.js lines 5-57 and
137-151, plus the `parseEquationToFunction` pipeline of lines 199-236)

Each regex rewrite of `sanitizeExpression` is implemented as a
left-to-right scan over the character list.  Following JavaScript
`String.replace` semantics with a global regex, matches are
non-overlapping, boundary lookarounds (`\b`) inspect the input characters
around the match, and scanning resumes after the end of each match.  The
scans consume at least one input character per step, so a fuel equal to
the input length never runs out. -/

/-- JavaScript whitespace `\s` as relevant here: space, tab, newline,
carriage return. -/
def isSpc (c : Char) : Bool :=
  c == ' ' || c == '\t' || c == '\n' || c == '\r'

/-- JavaScript word character `[A-Za-z0-9_]`, the class defining `\b`
boundaries. -/
def isWordChar (c : Char) : Bool := c.isAlpha || c.isDigit || c == '_'

/-- The variable letters of the implicit-multiplication rewrites: `[xy]`
under the case-insensitive flag. -/
def isVarChar (c : Char) : Bool :=
  c == 'x' || c == 'y' || c == 'X' || c == 'Y'

/-- `\b` lookbehind helper: is the previous input character a word
character? -/
def prevIsWord : Option Char → Bool
  | none => false
  | some c => isWordChar c

/-- `\b` lookahead helper: is the next input character a word
character? -/
def headIsWord : List Char → Bool
  | [] => false
  | c :: _ => isWordChar c

/-- JavaScript `String.prototype.trim` on the character list. -/
def trimChars (s : List Char) : List Char :=
  ((s.dropWhile isSpc).reverse.dropWhile isSpc).reverse

/-- `expr.replace(/^[yx]\s*=\s*/i, '')` (equation.js line 18): one
anchored match. -/
def stripLead (s : List Char) : List Char :=
  match s with
  | c :: rest =>
    if isVarChar c then
      match rest.dropWhile isSpc with
      | '=' :: r2 => r2.dropWhile isSpc
      | _ => s
    else s
  | [] => s

/-- `expr.replace(/\^/g, '**')` (equation.js line 20). -/
def caretPass : List Char → List Char
  | [] => []
  | c :: r => if c == '^' then '*' :: '*' :: caretPass r else c :: caretPass r

/-- Matcher for the tail of `/\bln\s*\(/i` after the initial `l`:
`n`, optional whitespace, `(`; returns the remainder past `(`. -/
def lnTail (r : List Char) : Option (List Char) :=
  match r with
  | n :: r2 =>
    if n == 'n' || n == 'N' then
      match r2.dropWhile isSpc with
      | '(' :: r3 => some r3
      | _ => none
    else none
  | [] => none

/-- `expr.replace(/\bln\s*\(/gi, 'log(')` (equation.js line 22); `prev`
is the input character before the scan position, for the `\b`
lookbehind. -/
def lnPass : Nat → Option Char → List Char → List Char
  | 0, _, s => s
  | _, _, [] => []
  | fuel + 1, prev, c :: r =>
    if (c == 'l' || c == 'L') && !prevIsWord prev then
      match lnTail r with
      | some r3 => 'l' :: 'o' :: 'g' :: '(' :: lnPass fuel (some '(') r3
      | none => c :: lnPass fuel (some c) r
    else c :: lnPass fuel (some c) r

/-- Matcher for `\s*([xy])\b`: optional whitespace, a variable letter,
then a non-word character or the end; returns the letter and the
remainder. -/
def varTail (r : List Char) : Option (Char × List Char) :=
  match r.dropWhile isSpc with
  | v :: r2 => if isVarChar v && !headIsWord r2 then some (v, r2) else none
  | [] => none

/-- `expr.replace(/(\d)\s*([xy])\b/gi, '$1*$2')` (equation.js line 25). -/
def digitVarPass : Nat → List Char → List Char
  | 0, s => s
  | _, [] => []
  | fuel + 1, c :: r =>
    if c.isDigit then
      match varTail r with
      | some (v, r2) => c :: '*' :: v :: digitVarPass fuel r2
      | none => c :: digitVarPass fuel r
    else c :: digitVarPass fuel r

/-- `expr.replace(/\b([xy])\s*(\d)/gi, '$1*$2')` (equation.js line 27). -/
def varDigitPass : Nat → Option Char → List Char → List Char
  | 0, _, s => s
  | _, _, [] => []
  | fuel + 1, prev, c :: r =>
    if isVarChar c && !prevIsWord prev then
      match r.dropWhile isSpc with
      | d :: r2 =>
        if d.isDigit then c :: '*' :: d :: varDigitPass fuel (some d) r2
        else c :: varDigitPass fuel (some c) r
      | [] => c :: varDigitPass fuel (some c) r
    else c :: varDigitPass fuel (some c) r

/-- `expr.replace(/\b([xy])\s*\(/gi, '$1*(')` (equation.js line 29). -/
def varParenPass : Nat → Option Char → List Char → List Char
  | 0, _, s => s
  | _, _, [] => []
  | fuel + 1, prev, c :: r =>
    if isVarChar c && !prevIsWord prev then
      match r.dropWhile isSpc with
      | '(' :: r2 => c :: '*' :: '(' :: varParenPass fuel (some '(') r2
      | _ => c :: varParenPass fuel (some c) r
    else c :: varParenPass fuel (some c) r

/-- `expr.replace(/\)\s*([xy])\b/gi, ')*$1')` (equation.js line 31). -/
def parenVarPass : Nat → List Char → List Char
  | 0, s => s
  | _, [] => []
  | fuel + 1, c :: r =>
    if c == ')' then
      match varTail r with
      | some (v, r2) => ')' :: '*' :: v :: parenVarPass fuel r2
      | none => ')' :: parenVarPass fuel r
    else c :: parenVarPass fuel r

/-- `expr.replace(/\)\s*\(/g, ')*(')` (equation.js line 33). -/
def parenParenPass : Nat → List Char → List Char
  | 0, s => s
  | _, [] => []
  | fuel + 1, c :: r =>
    if c == ')' then
      match r.dropWhile isSpc with
      | '(' :: r2 => ')' :: '*' :: '(' :: parenParenPass fuel r2
      | _ => ')' :: parenParenPass fuel r
    else c :: parenParenPass fuel r

/-- `sanitizeExpression` (equation.js lines 15-35): trim, strip a leading
`y =`/`x =`, rewrite `^` to `**` and `ln(` to `log(`, then insert the
five implicit-multiplication rewrites, in source order. -/
def sanitizeExpression (input : String) : String :=
  let e0 := trimChars input.data
  let e1 := stripLead e0
  let e2 := caretPass e1
  let e3 := lnPass e2.length none e2
  let e4 := digitVarPass e3.length e3
  let e5 := varDigitPass e4.length none e4
  let e6 := varParenPass e5.length none e5
  let e7 := parenVarPass e6.length e6
  let e8 := parenParenPass e7.length e7
  String.mk e8

/-- The literal `{` (written via its code point to keep brace characters
out of the source text). -/
def braceOpen : Char := Char.ofNat 123

/-- The literal `}`. -/
def braceClose : Char := Char.ofNat 125

/-- Scan for the regex match of `/\{([^}]*)\}\s*$/` (equation.js line
52): the leftmost open brace whose first following close brace is
followed only by whitespace; returns the match index and the inner
text. -/
def condMatch : List Char → Nat → Option (Nat × List Char)
  | [], _ => none
  | c :: r, i =>
    if c == braceOpen then
      match r.dropWhile (fun d => !(d == braceClose)) with
      | _ :: tail =>
        if (tail.dropWhile isSpc).isEmpty then
          some (i, r.takeWhile (fun d => !(d == braceClose)))
        else condMatch r (i + 1)
      | [] => condMatch r (i + 1)
    else condMatch r (i + 1)

/-- `extractCondition` (equation.js lines 50-57): split off a trailing
`{ condition }` clause, trimming both parts. -/
def extractCondition (raw : String) : String × Option String :=
  match condMatch raw.data 0 with
  | none => (raw, none)
  | some (i, inner) =>
    (String.mk (trimChars (raw.data.take i)),
     some (String.mk (trimChars inner)))

/-- `ALLOWED_IDENTIFIERS` (equation.js lines 5-13). -/
def ALLOWED_IDENTIFIERS : List String :=
  ["x", "y", "PI", "E",
   "sin", "cos", "tan", "asin", "acos", "atan", "atan2",
   "abs", "sqrt", "pow", "log", "exp", "min", "max",
   "floor", "ceil", "round", "sign"]

/-- The character class accepted by `validateExpression`'s test (line
140): digits, arithmetic operators, caret, parentheses, dot, space,
comma, letters, underscore. -/
def allowedChar (c : Char) : Bool :=
  c.isDigit || c == '+' || c == '-' || c == '*' || c == '/' || c == '^' ||
  c == '(' || c == ')' || c == '.' || c == ' ' || c == ',' ||
  c.isAlpha || c == '_'

/-- The identifier tokens `/[A-Za-z_][A-Za-z0-9_]*/g` of an expression,
by maximal munch from the left (line 144). -/
def identTokensAux : Nat → List Char → List String
  | 0, _ => []
  | _, [] => []
  | fuel + 1, c :: r =>
    if c.isAlpha || c == '_' then
      String.mk (c :: r.takeWhile isWordChar)
        :: identTokensAux fuel (r.dropWhile isWordChar)
    else identTokensAux fuel r

/-- The identifier tokens of a character list. -/
def identTokens (s : List Char) : List String := identTokensAux s.length s

/-- Structured validation errors: a disallowed character, or an
identifier outside the whitelist (named). -/
inductive ExprError where
  | invalidChars : ExprError
  | unknownIdent : String → ExprError
deriving DecidableEq

/-- `validateExpression` (equation.js lines 137-151): reject on a
disallowed character, then on the first identifier token outside the
whitelist. -/
def validateExpression (expr : String) : Except ExprError Unit :=
  if expr.data.any (fun c => !allowedChar c) then .error .invalidChars
  else
    match (identTokens expr.data).find?
        (fun t => !ALLOWED_IDENTIFIERS.contains t) with
    | some t => .error (.unknownIdent t)
    | none => .ok ()

/-- The expression string that `parseEquationToFunction` (equation.js
lines 199-236) hands to `validateExpression` and then compiles: trim the
input, split off a `{condition}`, sanitize the base part. -/
def parsedExpr (input : String) : String :=
  sanitizeExpression (extractCondition (String.mk (trimChars input.data))).1

deriving instance DecidableEq for Except

section Physics

open Classical

/-! ## Sliding physics and star collection (physics.js, utils.js)

The physics takes square roots (`Math.hypot`, `normalize`), so this part
of the embedding lives over `ℝ` with `Real.sqrt`; branch conditions use
classical decidability. -/

/-- `clamp` (utils.js line 25): `Math.max(min, Math.min(max, v))`. -/
noncomputable def clamp (v lo hi : ℝ) : ℝ := max lo (min hi v)

/-- `Math.hypot` over the reals. -/
noncomputable def hypot (x y : ℝ) : ℝ := Real.sqrt (x ^ 2 + y ^ 2)

/-- Result record of `closestPointOnSegment`. -/
structure CPoint where
  x : ℝ
  y : ℝ
  t : ℝ

/-- `closestPointOnSegment(px, py, ax, ay, bx, by)` (utils.js lines
27-35): the closest point `Q` on segment `AB` to `P`, via the clamped
projection parameter (`0` for a degenerate segment). -/
noncomputable def closestPointOnSegment (px py ax ay bx bY : ℝ) : CPoint :=
  let abx := bx - ax
  let aby := bY - ay
  let apx := px - ax
  let apy := py - ay
  let ab2 := abx * abx + aby * aby
  let t0 := if ab2 > 0 then (apx * abx + apy * aby) / ab2 else 0
  let t := clamp t0 0 1
  ⟨ax + t * abx, ay + t * aby, t⟩

/-- `normalize` (utils.js lines 45-49). -/
noncomputable def normalize (x y : ℝ) : ℝ × ℝ :=
  let m := hypot x y
  if m = 0 then (0, 0) else (x / m, y / m)

/-- A ball (physics.js lines 4-13).  `oob` is the `_oob` out-of-bounds
flag set by the tick (absent before first flagging, modelled `false`);
`collected`/`collectionTime` are set by `checkStarCollection`. -/
structure Ball where
  x : ℝ
  y : ℝ
  vx : ℝ
  vy : ℝ
  r : ℝ
  collected : Bool := false
  collectionTime : Option ℝ := none
  oob : Bool := false

/-- World bounds `{xMin, xMax, yMin, yMax}`. -/
structure Bounds where
  xMin : ℝ
  xMax : ℝ
  yMin : ℝ
  yMax : ℝ

/-- A curve as the physics sees it: its sampled `points` polyline, break
markers included (pairs touching a break are skipped, physics.js
line 45). -/
structure Curve where
  points : List (Option (ℝ × ℝ))

/-- The `best` contact record `{a, c, q, dist, tx, ty, nx, ny}` built at
physics.js line 65. -/
structure Contact where
  ax : ℝ
  ay : ℝ
  cx : ℝ
  cy : ℝ
  qx : ℝ
  qy : ℝ
  dist : ℝ
  tx : ℝ
  ty : ℝ
  nx : ℝ
  ny : ℝ

/-- The contact record built for a qualifying segment (physics.js lines
53-65): closest point, distance, unit tangent along the segment, and the
perpendicular oriented toward the ball by the sign of its dot product
with the ball-to-closest-point offset. -/
noncomputable def mkContact (bx bY : ℝ) (a c : ℝ × ℝ) : Contact :=
  let q := closestPointOnSegment bx bY a.1 a.2 c.1 c.2
  let dx := bx - q.x
  let dy := bY - q.y
  let dist := hypot dx dy
  let tnorm := normalize (c.1 - a.1) (c.2 - a.2)
  let guessN := normalize (-tnorm.2) tnorm.1
  if dx * guessN.1 + dy * guessN.2 ≥ 0 then
    ⟨a.1, a.2, c.1, c.2, q.x, q.y, dist, tnorm.1, tnorm.2,
      guessN.1, guessN.2⟩
  else
    ⟨a.1, a.2, c.1, c.2, q.x, q.y, dist, tnorm.1, tnorm.2,
      -guessN.1, -guessN.2⟩

/-- The broad-phase AABB test (physics.js lines 46-51): the ball center
lies inside the segment's bounding box expanded by `r + 0.05` (the source
`continue`s on the negation). -/
def aabbPass (bx bY r : ℝ) (a c : ℝ × ℝ) : Prop :=
  ¬(bx < min a.1 c.1 - r - 0.05 ∨ bx > max a.1 c.1 + r + 0.05 ∨
    bY < min a.2 c.2 - r - 0.05 ∨ bY > max a.2 c.2 + r + 0.05)

/-- The exact contact test (physics.js line 57): the distance to the
closest point on the segment is at most `r + 0.02`. -/
noncomputable def withinRange (bx bY r : ℝ) (a c : ℝ × ℝ) : Prop :=
  hypot (bx - (closestPointOnSegment bx bY a.1 a.2 c.1 c.2).x)
      (bY - (closestPointOnSegment bx bY a.1 a.2 c.1 c.2).y) ≤ r + 0.02

/-- One step of the `best`-selection loop (physics.js lines 46-66):
broad-phase AABB, then the exact distance test; a qualifying segment
overwrites `best`. -/
noncomputable def segStep (bx bY r : ℝ) (best : Option Contact)
    (s : (ℝ × ℝ) × (ℝ × ℝ)) : Option Contact :=
  if aabbPass bx bY r s.1 s.2 then
    if withinRange bx bY r s.1 s.2 then some (mkContact bx bY s.1 s.2)
    else best
  else best

/-- The segments of one curve in index order, skipping pairs that touch a
break marker (physics.js lines 42-45). -/
def segPairs (pts : List (Option (ℝ × ℝ))) : List ((ℝ × ℝ) × (ℝ × ℝ)) :=
  (pts.zip pts.tail).filterMap fun s =>
    match s with
    | (some a, some c) => some (a, c)
    | _ => none

/-- All segments of all curves, in curve-then-segment iteration order. -/
def allSegs (curves : List Curve) : List ((ℝ × ℝ) × (ℝ × ℝ)) :=
  (curves.map fun cv => segPairs cv.points).flatten

/-- The contact-selection loop of `updateBalls` (physics.js lines 38-68). -/
noncomputable def findBest (bx bY r : ℝ) (curves : List Curve) :
    Option Contact :=
  (allSegs curves).foldl (segStep bx bY r) none

/-- Modelled from the spec: contact selection "by the exact distance test
alone" (the reference selection of claim C10, with no broad-phase
rejection), to be compared with `findBest`. -/
noncomputable def findBestExact (bx bY r : ℝ) (curves : List Curve) :
    Option Contact :=
  (allSegs curves).foldl
    (fun best s =>
      if withinRange bx bY r s.1 s.2 then some (mkContact bx bY s.1 s.2)
      else best) none

/-- The penetration-resolution step (physics.js lines 72-82): translate
along the contact normal to sit `1e-4` above the surface. -/
noncomputable def snapPos (b : Ball) (ct : Contact) : Ball :=
  let pen := (b.r - ct.dist) + 1e-4
  if pen > 0 then
    { b with x := b.x + ct.nx * pen, y := b.y + ct.ny * pen }
  else
    { b with x := ct.qx + ct.nx * (b.r + 1e-4),
             y := ct.qy + ct.ny * (b.r + 1e-4) }

/-- The sliding velocity update (physics.js lines 84-95): project the
velocity on the tangent, discard the normal component, add the tangential
gravity contribution over `dt`, apply the friction factor `0.995`. -/
noncomputable def slideVel (b : Ball) (ct : Contact) (dt gravity : ℝ) :
    Ball :=
  let vt := b.vx * ct.tx + b.vy * ct.ty
  let gx := (0 : ℝ)
  let gy := gravity
  let gt := gx * ct.tx + gy * ct.ty
  let newVt := (vt + gt * dt) * 0.995
  { b with vx := newVt * ct.tx, vy := newVt * ct.ty }

/-- Euler position integration (physics.js lines 97-99 and 101-103). -/
noncomputable def integrate (b : Ball) (dt : ℝ) : Ball :=
  { b with x := b.x + b.vx * dt, y := b.y + b.vy * dt }

/-- The out-of-bounds test (physics.js lines 28-33): the ball's bounding
circle has fully left the world rectangle on some side. -/
def oobCond (bds : Bounds) (b : Ball) : Prop :=
  b.x + b.r < bds.xMin ∨ b.x - b.r > bds.xMax ∨
  b.y + b.r < bds.yMin ∨ b.y - b.r > bds.yMax

/-- One tick of `updateBalls` for a single ball (physics.js lines
17-105): gravity is added to `vy` first (line 19); the out-of-bounds
check runs next and on success sets the flag and skips the rest of the
tick (lines 28-36); otherwise the contact branch snaps, slides and
integrates (lines 70-99), and the free branch integrates (lines
100-104). -/
noncomputable def tickBall (b : Ball) (dt gravity : ℝ) (bds : Bounds)
    (curves : List Curve) : Ball :=
  let b1 := { b with vy := b.vy + gravity * dt }
  if oobCond bds b1 then { b1 with oob := true }
  else
    match findBest b1.x b1.y b1.r curves with
    | some ct => integrate (slideVel (snapPos b1 ct) ct dt gravity) dt
    | none => integrate b1 dt

/-- `updateBalls` (physics.js lines 15-106): every ball is updated
independently, in place. -/
noncomputable def updateBalls (balls : List Ball) (dt gravity : ℝ)
    (bds : Bounds) (curves : List Curve) : List Ball :=
  balls.map fun b => tickBall b dt gravity bds curves

/-- A star; `collectedTime` and `collectionScale` are set on
collection. -/
structure Star where
  x : ℝ
  y : ℝ
  collected : Bool := false
  collectedTime : Option ℝ := none
  collectionScale : Option ℝ := none

/-- Result of `checkStarCollection`: the mutated ball and star lists, the
collected count, and the new-collection flag. -/
structure CollectResult where
  balls : List Ball
  stars : List Star
  count : Nat
  newlyCollected : Bool

/-- The inner ball loop of `checkStarCollection` (physics.js lines
118-138) for one not-yet-collected star: the first ball within
`b.r + radius` of the star is marked as having collected it and the scan
stops (`break`); `none` if no ball is in range.  `now` models
`performance.now()` as an explicit time input. -/
noncomputable def collectScan (s : Star) (radius now : ℝ) :
    List Ball → Option (List Ball)
  | [] => none
  | b :: rest =>
    if hypot (b.x - s.x) (b.y - s.y) ≤ b.r + radius then
      some ({ b with collected := true, collectionTime := some now } :: rest)
    else
      match collectScan s radius now rest with
      | some rest2 => some (b :: rest2)
      | none => none

/-- `checkStarCollection` (physics.js lines 108-146), processing the star
list in order: an already-collected star only counts (`continue`); an
uncollected star within range of some ball is marked collected
irreversibly, with timestamp and animation scale `1.5`, counts, and
raises the new-collection flag; otherwise it is left unchanged. -/
noncomputable def checkStarCollection (balls : List Ball)
    (stars : List Star) (radius now : ℝ) : CollectResult :=
  match stars with
  | [] => ⟨balls, [], 0, false⟩
  | s :: rest =>
    if s.collected then
      let rres := checkStarCollection balls rest radius now
      ⟨rres.balls, s :: rres.stars, rres.count + 1, rres.newlyCollected⟩
    else
      match collectScan s radius now balls with
      | some balls2 =>
        let rres := checkStarCollection balls2 rest radius now
        ⟨rres.balls,
         { s with collected := true, collectedTime := some now,
                  collectionScale := some 1.5 } :: rres.stars,
         rres.count + 1, true⟩
      | none =>
        let rres := checkStarCollection balls rest radius now
        ⟨rres.balls, s :: rres.stars, rres.count, rres.newlyCollected⟩

/-- Demo world bounds (the source's default world rectangle). -/
noncomputable def demoBounds : Bounds := ⟨-10, 10, -(15/2), 15/2⟩

/-- A one-segment 3-4-5 sloped curve through the origin. -/
noncomputable def demoCurve : Curve := ⟨[some (0, 0), some (4, 3)]⟩

/-- A resting ball whose center sits `0.1` world units from the demo
segment, on the perpendicular through the segment midpoint `(2, 3/2)`
(so it penetrates its own radius `0.2`). -/
noncomputable def demoBall : Ball :=
  { x := 97/50, y := 79/50, vx := 0, vy := 0, r := 1/5 }

/-- The contact record `findBest` selects for `demoBall` on
`demoCurve`. -/
noncomputable def demoContact : Contact :=
  ⟨0, 0, 4, 3, 2, 3/2, 1/10, 4/5, 3/5, -(3/5), 4/5⟩

/-- A ball far beyond the left world edge with its out-of-bounds flag
already set. -/
noncomputable def demoBallOut : Ball :=
  { x := -20, y := 0, vx := 0, vy := 0, r := 1/5, oob := true }

instance : Inhabited Ball := ⟨{ x := 0, y := 0, vx := 0, vy := 0, r := 0 }⟩

/-- The demo ball after a tick with `dt = 0`: the snap is then the only
position change of the tick, so this is the state immediately after the
penetration-resolution step. -/
noncomputable def demoSnapped : Ball :=
  (updateBalls [demoBall] 0 (-(49/5)) demoBounds [demoCurve]).headI

/-- An already-collected star, away from every ball. -/
noncomputable def demoStar : Star := { x := 5, y := 5, collected := true }

end Physics

/-- The clean-up loop establishes the adjacency invariant: it never pushes
a break after a break or onto an empty output, and never pushes a point
within `1e-9` of the previous stored point. -/
lemma cleanup_inv : ∀ l out : List Entry,
    List.Chain' (flip stepOK) out → out.getLast? ≠ some none →
    List.Chain' (flip stepOK) (cleanup l out) ∧
      (cleanup l out).getLast? ≠ some none := by
  intro l
  induction l with
  | nil => intro out h1 h2; exact ⟨h1, h2⟩
  | cons e rest ih =>
    intro out h1 h2
    rcases e with _ | p
    · rcases out with _ | ⟨eo, out'⟩
      · exact ih [] h1 h2
      · rcases eo with _ | l0
        · exact ih _ h1 h2
        · refine ih _ (List.chain'_cons.mpr ⟨trivial, h1⟩) ?_
          simpa [List.getLast?_cons_cons] using h2
    · rcases out with _ | ⟨eo, out'⟩
      · refine ih _ (List.chain'_singleton _) ?_
        simp
      · rcases eo with _ | l0
        · refine ih _ (List.chain'_cons.mpr ⟨trivial, h1⟩) ?_
          simpa [List.getLast?_cons_cons] using h2
        · by_cases hd : (p.1 - l0.1) ^ 2 + (p.2 - l0.2) ^ 2 > 1e-18
          · rw [show cleanup (some p :: rest) (some l0 :: out')
                = cleanup rest (some p :: some l0 :: out') by
                  simp [cleanup, hd]]
            refine ih _ (List.chain'_cons.mpr ⟨hd, h1⟩) ?_
            simpa [List.getLast?_cons_cons] using h2
          · rw [show cleanup (some p :: rest) (some l0 :: out')
                = cleanup rest (some l0 :: out') by simp [cleanup, hd]]
            exact ih _ h1 h2

/-- `addBreak` only ever adds a break marker. -/
lemma mem_addBreak {p : ℚ × ℚ} {pts : List Entry} (h : some p ∈ addBreak pts) :
    some p ∈ pts := by
  rcases pts with _ | ⟨_ | q, rest⟩ <;> simpa [addBreak] using h

/-- Every point of an `acceptPush` result is one of the three pushed
samples or was already stored. -/
lemma acceptPush_sub {p : ℚ × ℚ} {x0 y0 xm ym x1 y1 : ℚ} {pts : List Entry}
    (h : some p ∈ acceptPush x0 y0 xm ym x1 y1 pts) :
    p = (x0, y0) ∨ p = (xm, ym) ∨ p = (x1, y1) ∨ some p ∈ pts := by
  rcases pts with _ | ⟨_ | q, rest⟩ <;>
    · simp only [acceptPush] at h
      split_ifs at h <;> simp_all <;> tauto

/-- Every point of an `acceptPushY` result is one of the three pushed
samples or was already stored. -/
lemma acceptPushY_sub {p : ℚ × ℚ} {y0 x0 ym xm y1 x1 : ℚ} {pts : List Entry}
    (h : some p ∈ acceptPushY y0 x0 ym xm y1 x1 pts) :
    p = (x0, y0) ∨ p = (xm, ym) ∨ p = (x1, y1) ∨ some p ∈ pts := by
  rcases pts with _ | ⟨_ | q, rest⟩ <;>
    · simp only [acceptPushY] at h
      split_ifs at h <;> simp_all <;> tauto

/-- `subdivide` only stores successful `safeEval` samples. -/
lemma subdivide_points (f : Evaluator) (cond : Cond) :
    ∀ (fuel : Nat) (x0 : ℚ) (y0 : Option ℚ) (x1 : ℚ) (y1 : Option ℚ)
      (pts : List Entry),
      y0 = safeEval f cond x0 → y1 = safeEval f cond x1 →
      PointsOK f cond pts →
      PointsOK f cond (subdivide f cond fuel x0 y0 x1 y1 pts) := by
  intro fuel
  induction fuel with
  | zero =>
    intro x0 y0 x1 y1 pts h0 h1 hp
    rcases hy0 : y0 with _ | v0 <;> rcases hy1 : y1 with _ | v1 <;>
      subst hy0 <;> subst hy1
    · exact fun x y hm => hp x y (mem_addBreak hm)
    · exact fun x y hm => hp x y (mem_addBreak hm)
    · exact fun x y hm => hp x y (mem_addBreak hm)
    · rcases hm : safeEval f cond ((x0 + x1) / 2) with _ | vm <;>
        simp only [subdivide, hm]
      · exact fun x y hmem => hp x y (mem_addBreak hmem)
      · intro x y hmem
        rcases acceptPush_sub hmem with h | h | h | h
        · rcases h with ⟨rfl, rfl⟩; exact h0.symm
        · rcases h with ⟨rfl, rfl⟩; exact hm
        · rcases h with ⟨rfl, rfl⟩; exact h1.symm
        · exact hp x y h
  | succ fuel ih =>
    intro x0 y0 x1 y1 pts h0 h1 hp
    rcases hy0 : y0 with _ | v0 <;> rcases hy1 : y1 with _ | v1 <;>
      subst hy0 <;> subst hy1
    · exact fun x y hm => hp x y (mem_addBreak hm)
    · exact ih _ _ _ _ _ rfl h1 (ih _ _ _ _ _ h0 rfl hp)
    · exact ih _ _ _ _ _ rfl h1 (ih _ _ _ _ _ h0 rfl hp)
    · rcases hm : safeEval f cond ((x0 + x1) / 2) with _ | vm <;>
        simp only [subdivide, hm]
      · exact ih _ _ _ _ _ hm.symm h1 (ih _ _ _ _ _ h0 hm.symm hp)
      · split_ifs with hc
        · exact ih _ _ _ _ _ hm.symm h1 (ih _ _ _ _ _ h0 hm.symm hp)
        · intro x y hmem
          rcases acceptPush_sub hmem with h | h | h | h
          · rcases h with ⟨rfl, rfl⟩; exact h0.symm
          · rcases h with ⟨rfl, rfl⟩; exact hm
          · rcases h with ⟨rfl, rfl⟩; exact h1.symm
          · exact hp x y h

/-- `subdivideY` only stores successful `safeEvalY` samples. -/
lemma subdivideY_points (g : Evaluator) (cond : Cond) :
    ∀ (fuel : Nat) (y0 : ℚ) (x0 : Option ℚ) (y1 : ℚ) (x1 : Option ℚ)
      (pts : List Entry),
      x0 = safeEvalY g cond y0 → x1 = safeEvalY g cond y1 →
      PointsOKY g cond pts →
      PointsOKY g cond (subdivideY g cond fuel y0 x0 y1 x1 pts) := by
  intro fuel
  induction fuel with
  | zero =>
    intro y0 x0 y1 x1 pts h0 h1 hp
    rcases hx0 : x0 with _ | v0 <;> rcases hx1 : x1 with _ | v1 <;>
      subst hx0 <;> subst hx1
    · exact fun x y hm => hp x y (mem_addBreak hm)
    · exact fun x y hm => hp x y (mem_addBreak hm)
    · exact fun x y hm => hp x y (mem_addBreak hm)
    · rcases hm : safeEvalY g cond ((y0 + y1) / 2) with _ | vm <;>
        simp only [subdivideY, hm]
      · exact fun x y hmem => hp x y (mem_addBreak hmem)
      · intro x y hmem
        rcases acceptPushY_sub hmem with h | h | h | h
        · rcases h with ⟨rfl, rfl⟩; exact h0.symm
        · rcases h with ⟨rfl, rfl⟩; exact hm
        · rcases h with ⟨rfl, rfl⟩; exact h1.symm
        · exact hp x y h
  | succ fuel ih =>
    intro y0 x0 y1 x1 pts h0 h1 hp
    rcases hx0 : x0 with _ | v0 <;> rcases hx1 : x1 with _ | v1 <;>
      subst hx0 <;> subst hx1
    · exact fun x y hm => hp x y (mem_addBreak hm)
    · exact ih _ _ _ _ _ rfl h1 (ih _ _ _ _ _ h0 rfl hp)
    · exact ih _ _ _ _ _ rfl h1 (ih _ _ _ _ _ h0 rfl hp)
    · rcases hm : safeEvalY g cond ((y0 + y1) / 2) with _ | vm <;>
        simp only [subdivideY, hm]
      · exact ih _ _ _ _ _ hm.symm h1 (ih _ _ _ _ _ h0 hm.symm hp)
      · split_ifs with hc
        · exact ih _ _ _ _ _ hm.symm h1 (ih _ _ _ _ _ h0 hm.symm hp)
        · intro x y hmem
          rcases acceptPushY_sub hmem with h | h | h | h
          · rcases h with ⟨rfl, rfl⟩; exact h0.symm
          · rcases h with ⟨rfl, rfl⟩; exact hm
          · rcases h with ⟨rfl, rfl⟩; exact h1.symm
          · exact hp x y h

/-- The coarse loop of `sampleCurve` only stores successful samples. -/
lemma sampleLoop_points (f : Evaluator) (cond : Cond) (xMax coarse : ℚ) :
    ∀ (fuel : Nat) (x0 : ℚ) (y0 : Option ℚ) (x1 : ℚ) (pts : List Entry),
      y0 = safeEval f cond x0 → PointsOK f cond pts →
      PointsOK f cond (sampleLoop f cond xMax coarse fuel x0 y0 x1 pts) := by
  intro fuel
  induction fuel with
  | zero => intro x0 y0 x1 pts _ hp; exact hp
  | succ fuel ih =>
    intro x0 y0 x1 pts h0 hp
    simp only [sampleLoop]
    split_ifs with h1 h2
    · exact subdivide_points f cond 12 _ _ _ _ _ h0 rfl hp
    · exact ih _ _ _ _ rfl (subdivide_points f cond 12 _ _ _ _ _ h0 rfl hp)
    · exact hp

/-- The coarse loop of `sampleCurveY` only stores successful samples. -/
lemma sampleLoopY_points (g : Evaluator) (cond : Cond) (yMax coarse : ℚ) :
    ∀ (fuel : Nat) (y0 : ℚ) (x0 : Option ℚ) (y1 : ℚ) (pts : List Entry),
      x0 = safeEvalY g cond y0 → PointsOKY g cond pts →
      PointsOKY g cond (sampleLoopY g cond yMax coarse fuel y0 x0 y1 pts) := by
  intro fuel
  induction fuel with
  | zero => intro y0 x0 y1 pts _ hp; exact hp
  | succ fuel ih =>
    intro y0 x0 y1 pts h0 hp
    simp only [sampleLoopY]
    split_ifs with h1 h2
    · exact subdivideY_points g cond 12 _ _ _ _ _ h0 rfl hp
    · exact ih _ _ _ _ rfl (subdivideY_points g cond 12 _ _ _ _ _ h0 rfl hp)
    · exact hp

/-- Points surviving `cleanup` come from the input stream or the initial
accumulator. -/
lemma cleanup_sub {p : ℚ × ℚ} :
    ∀ (l out : List Entry), some p ∈ cleanup l out →
      some p ∈ l ∨ some p ∈ out := by
  intro l
  induction l with
  | nil => intro out h; exact Or.inr h
  | cons e rest ih =>
    intro out h
    rcases e with _ | q
    · rcases out with _ | ⟨_ | l0, out'⟩ <;>
      · simp only [cleanup] at h
        rcases ih _ h with h' | h' <;> simp_all <;> tauto
    · rcases out with _ | ⟨_ | l0, out'⟩
      · simp only [cleanup] at h
        rcases ih _ h with h' | h' <;> simp_all <;> tauto
      · simp only [cleanup] at h
        rcases ih _ h with h' | h' <;> simp_all <;> tauto
      · simp only [cleanup] at h
        split_ifs at h <;> rcases ih _ h with h' | h' <;> simp_all <;> tauto

/-- Unfolding of a successful `safeEval`: the evaluator succeeded with a
finite value within the `1e6` sanity bound and the predicate held. -/
lemma safeEval_some {f : Evaluator} {cond : Cond} {x y : ℚ}
    (h : safeEval f cond x = some y) :
    f x = some y ∧ |y| ≤ 1e6 ∧ condHolds cond x y := by
  rcases hf : f x with _ | v
  · simp only [safeEval, hf] at h
    exact absurd h (by simp)
  · simp only [safeEval, hf] at h
    split_ifs at h with hb
    rcases cond with _ | c
    · dsimp only at h
      simp only [Option.some_inj] at h
      subst h
      exact ⟨rfl, not_lt.mp hb, trivial⟩
    · dsimp only at h
      rcases hc : c x v with _ | b
      · simp [hc] at h
      · rcases b with _ | _
        · simp [hc] at h
        · simp only [hc, if_true, Option.some_inj] at h
          subst h
          exact ⟨rfl, not_lt.mp hb, by simpa [condHolds] using hc⟩

/-- Unfolding of a successful `safeEvalY`. -/
lemma safeEvalY_some {g : Evaluator} {cond : Cond} {x y : ℚ}
    (h : safeEvalY g cond y = some x) :
    g y = some x ∧ |x| ≤ 1e6 ∧ condHolds cond x y := by
  rcases hf : g y with _ | v
  · simp only [safeEvalY, hf] at h
    exact absurd h (by simp)
  · simp only [safeEvalY, hf] at h
    split_ifs at h with hb
    rcases cond with _ | c
    · dsimp only at h
      simp only [Option.some_inj] at h
      subst h
      exact ⟨rfl, not_lt.mp hb, trivial⟩
    · dsimp only at h
      rcases hc : c v y with _ | b
      · simp [hc] at h
      · rcases b with _ | _
        · simp [hc] at h
        · simp only [hc, if_true, Option.some_inj] at h
          subst h
          exact ⟨rfl, not_lt.mp hb, by simpa [condHolds] using hc⟩

/-- Claim C3: for every evaluator (including a throwing one), interval,
step and optional domain predicate, `sampleCurve` and `sampleCurveY`
return (totality of the Lean model) and every point stored in the
returned polyline comes from an evaluation that succeeded with a finite
value of magnitude at most `1e6` and, when a predicate is supplied,
satisfied it; failing inputs surface only as break markers, never as
points. -/
theorem claim_C3 :
    (∀ (f : Evaluator) (cond : Cond) (xMin xMax step x y : ℚ),
        some (x, y) ∈ sampleCurve f xMin xMax step cond →
          f x = some y ∧ |y| ≤ 1e6 ∧ condHolds cond x y)
    ∧ (∀ (g : Evaluator) (cond : Cond) (yMin yMax step x y : ℚ),
        some (x, y) ∈ sampleCurveY g yMin yMax step cond →
          g y = some x ∧ |x| ≤ 1e6 ∧ condHolds cond x y) := by
  constructor
  · intro f cond xMin xMax step x y hmem
    apply safeEval_some
    simp only [sampleCurve, List.mem_reverse] at hmem
    rcases cleanup_sub _ _ hmem with h | h
    · rw [List.mem_reverse] at h
      exact sampleLoop_points f cond xMax _ _ _ _ _ _ rfl
        (fun _ _ hx => absurd hx (List.not_mem_nil _)) x y h
    · exact absurd h (List.not_mem_nil _)
  · intro g cond yMin yMax step x y hmem
    apply safeEvalY_some
    simp only [sampleCurveY, List.mem_reverse] at hmem
    rcases cleanup_sub _ _ hmem with h | h
    · rw [List.mem_reverse] at h
      exact sampleLoopY_points g cond yMax _ _ _ _ _ _ rfl
        (fun _ _ hx => absurd hx (List.not_mem_nil _)) x y h
    · exact absurd h (List.not_mem_nil _)

/-- Concrete evaluation steps for `sampleCurve demoEval 0 1 1 none`. -/
lemma demo_safeEval_zero : safeEval demoEval none 0 = some 1 := by
  norm_num [safeEval, demoEval]

lemma demo_safeEval_one : safeEval demoEval none 1 = some 2 := by
  norm_num [safeEval, demoEval]

lemma demo_safeEval_half : safeEval demoEval none (1/2) = some (3/2) := by
  norm_num [safeEval, demoEval, abs_of_nonneg]

lemma demo_subdivide : subdivide demoEval none 12 0 (some 1) 1 (some 2) []
    = [some (1, 2), some ((1 : ℚ)/2, 3/2), some (0, 1)] := by
  rw [subdivide.eq_def]
  norm_num [demo_safeEval_half, acceptPush, abs_of_nonneg]

lemma demo_sampleLoop : sampleLoop demoEval none 1 1 3 0 (some 1) 1 []
    = [some (1, 2), some ((1 : ℚ)/2, 3/2), some (0, 1)] := by
  rw [sampleLoop.eq_def]
  norm_num [demo_safeEval_one, demo_subdivide, abs_of_nonneg]

/-- The full sampler run on the demo evaluator over `[0, 1]` with step 1:
three collinear stored points, no breaks. -/
lemma demo_sampleCurve_eq : sampleCurve demoEval 0 1 1 none
    = [some (0, 1), some ((1 : ℚ)/2, 3/2), some (1, 2)] := by
  rw [sampleCurve]
  norm_num [loopFuel, demo_safeEval_zero, demo_sampleLoop, cleanup,
    abs_of_nonneg]

/-- Concrete check of claim C3 at the evaluator `x ↦ x + 1` on `[0, 1]`:
the stored midpoint `(1/2, 3/2)` indeed comes from a successful
evaluation. -/
theorem claim_C3_witness :
    some ((1 : ℚ)/2, 3/2) ∈ sampleCurve demoEval 0 1 1 none ∧
      (demoEval (1/2) = some (3/2) ∧ |(3/2 : ℚ)| ≤ 1e6 ∧
        condHolds none (1/2) (3/2)) :=
  ⟨by rw [demo_sampleCurve_eq]; simp,
   claim_C3.1 demoEval none 0 1 1 (1/2) (3/2)
     (by rw [demo_sampleCurve_eq]; simp)⟩

/-- Claim C4: for every evaluator, interval, step and optional predicate,
the polyline returned by `sampleCurve` (and `sampleCurveY`) has no two
consecutive stored points within Euclidean distance `1e-9` (stated as the
squared comparison `> 1e-18`), no two consecutive break markers, and no
break marker in first position. -/
theorem claim_C4 :
    (∀ (f : Evaluator) (xMin xMax step : ℚ) (cond : Cond),
        List.Chain' stepOK (sampleCurve f xMin xMax step cond) ∧
          (sampleCurve f xMin xMax step cond).head? ≠ some none)
    ∧ (∀ (g : Evaluator) (yMin yMax step : ℚ) (cond : Cond),
        List.Chain' stepOK (sampleCurveY g yMin yMax step cond) ∧
          (sampleCurveY g yMin yMax step cond).head? ≠ some none) := by
  constructor
  · intro f xMin xMax step cond
    simp only [sampleCurve]
    have h := cleanup_inv
      ((sampleLoop f cond xMax (max step ((xMax - xMin) / 64))
        (loopFuel xMin xMax (max step ((xMax - xMin) / 64))) xMin
        (safeEval f cond xMin)
        (min (xMin + max step ((xMax - xMin) / 64)) xMax) []).reverse) []
      List.chain'_nil (by simp)
    exact ⟨List.chain'_reverse.mpr h.1, by rw [List.head?_reverse]; exact h.2⟩
  · intro g yMin yMax step cond
    simp only [sampleCurveY]
    have h := cleanup_inv
      ((sampleLoopY g cond yMax (max step ((yMax - yMin) / 64))
        (loopFuel yMin yMax (max step ((yMax - yMin) / 64))) yMin
        (safeEvalY g cond yMin)
        (min (yMin + max step ((yMax - yMin) / 64)) yMax) []).reverse) []
      List.chain'_nil (by simp)
    exact ⟨List.chain'_reverse.mpr h.1, by rw [List.head?_reverse]; exact h.2⟩

/-- Concrete instantiation of claim C4 at the evaluator `x ↦ x + 1` on
`[0, 1]`. -/
theorem claim_C4_witness :
    List.Chain' stepOK (sampleCurve demoEval 0 1 1 none) ∧
      (sampleCurve demoEval 0 1 1 none).head? ≠ some none :=
  claim_C4.1 demoEval 0 1 1 none

/-- Claim C5: the equation strings `y = 2x + 3` and `y = 2*x + 3` are
sanitized by the `parseEquationToFunction` pipeline to the same
expression string, so the compiled evaluators agree (within `1e-9`) at
`x = 0, 1, -5, 100`.  The `new Function` compilation step is the
JavaScript engine, not repository code; it is modelled as an arbitrary
function `build` of the sanitized expression string, which suffices
because the two sanitized strings are identical. -/
theorem claim_C5 :
    parsedExpr "y = 2x + 3" = parsedExpr "y = 2*x + 3" ∧
    ∀ (build : String → ℚ → ℚ) (x : ℚ), x ∈ ([0, 1, -5, 100] : List ℚ) →
      |build (parsedExpr "y = 2x + 3") x
        - build (parsedExpr "y = 2*x + 3") x| ≤ 1e-9 := by
  have h : parsedExpr "y = 2x + 3" = parsedExpr "y = 2*x + 3" := by decide
  refine ⟨h, fun build x _ => ?_⟩
  rw [h, sub_self, abs_zero]
  norm_num

/-- A concrete stand-in for the `new Function` compilation step, used by
the C5 witness. -/
def demoBuild : String → ℚ → ℚ := fun _ x => 2 * x + 3

/-- Concrete instantiation of claim C5 at `x = 0` with a concrete
compilation function. -/
theorem claim_C5_witness :
    ((0 : ℚ) ∈ ([0, 1, -5, 100] : List ℚ)) ∧
      |demoBuild (parsedExpr "y = 2x + 3") 0
        - demoBuild (parsedExpr "y = 2*x + 3") 0| ≤ 1e-9 :=
  ⟨List.mem_cons_self _ _, claim_C5.2 demoBuild 0 (List.mem_cons_self _ _)⟩

/-- Claim C6: parsing `y = foo(x)` fails with an unknown-identifier error
naming `foo`; in general, `validateExpression` rejects (with some error)
any expression containing an identifier token outside the whitelist. -/
theorem claim_C6 :
    validateExpression (parsedExpr "y = foo(x)")
      = .error (.unknownIdent "foo") ∧
    ∀ e : String, (∃ t ∈ identTokens e.data, t ∉ ALLOWED_IDENTIFIERS) →
      ∃ err, validateExpression e = .error err := by
  constructor
  · decide
  · rintro e ⟨t, ht, hta⟩
    unfold validateExpression
    split_ifs with hc
    · exact ⟨.invalidChars, rfl⟩
    · rcases hfind : (identTokens e.data).find?
          (fun t => !ALLOWED_IDENTIFIERS.contains t) with _ | t2
      · exfalso
        have hmem := List.find?_eq_none.mp hfind t ht
        simp only [Bool.not_eq_true', Bool.not_eq_false] at hmem
        exact hta (by simpa using hmem)
      · exact ⟨.unknownIdent t2, rfl⟩

/-- Concrete instantiation of the general rejection of claim C6 at the
expression `bar(x)`. -/
theorem claim_C6_witness :
    (∃ t ∈ identTokens ("bar(x)").data, t ∉ ALLOWED_IDENTIFIERS) ∧
      ∃ err, validateExpression "bar(x)" = .error err :=
  ⟨by decide, claim_C6.2 "bar(x)" (by decide)⟩

section PhysicsProofs

open Classical

/-- `|x|` is bounded by `hypot x y`. -/
lemma abs_le_hypot (x y : ℝ) : |x| ≤ hypot x y := by
  rw [hypot, ← Real.sqrt_sq_eq_abs]
  exact Real.sqrt_le_sqrt (by nlinarith [sq_nonneg y])

/-- `|y|` is bounded by `hypot x y`. -/
lemma abs_le_hypot' (x y : ℝ) : |y| ≤ hypot x y := by
  rw [hypot, ← Real.sqrt_sq_eq_abs]
  exact Real.sqrt_le_sqrt (by nlinarith [sq_nonneg x])

/-- Evaluation of `hypot` at a perfect square. -/
lemma hypot_eval {x y d : ℝ} (hd : 0 ≤ d) (h : x ^ 2 + y ^ 2 = d ^ 2) :
    hypot x y = d := by
  rw [hypot, h, Real.sqrt_sq hd]

/-- The clamped projection parameter of `closestPointOnSegment` lies in
`[0, 1]`. -/
lemma closestPoint_t_mem (px py ax ay bx bY : ℝ) :
    0 ≤ (closestPointOnSegment px py ax ay bx bY).t ∧
      (closestPointOnSegment px py ax ay bx bY).t ≤ 1 := by
  unfold closestPointOnSegment clamp
  constructor
  · exact le_max_left _ _
  · exact max_le (by norm_num) (min_le_left _ _)

/-- The closest point's `x` lies between the segment endpoints' `x`s. -/
lemma closestPoint_x_mem (px py ax ay bx bY : ℝ) :
    min ax bx ≤ (closestPointOnSegment px py ax ay bx bY).x ∧
      (closestPointOnSegment px py ax ay bx bY).x ≤ max ax bx := by
  obtain ⟨h0, h1⟩ := closestPoint_t_mem px py ax ay bx bY
  revert h0 h1
  unfold closestPointOnSegment
  intro h0 h1
  dsimp only at h0 h1 ⊢
  rcases le_total ax bx with hab | hab
  · rw [min_eq_left hab, max_eq_right hab]
    constructor <;> nlinarith
  · rw [min_eq_right hab, max_eq_left hab]
    constructor <;> nlinarith

/-- The closest point's `y` lies between the segment endpoints' `y`s. -/
lemma closestPoint_y_mem (px py ax ay bx bY : ℝ) :
    min ay bY ≤ (closestPointOnSegment px py ax ay bx bY).y ∧
      (closestPointOnSegment px py ax ay bx bY).y ≤ max ay bY := by
  obtain ⟨h0, h1⟩ := closestPoint_t_mem px py ax ay bx bY
  revert h0 h1
  unfold closestPointOnSegment
  intro h0 h1
  dsimp only at h0 h1 ⊢
  rcases le_total ay bY with hab | hab
  · rw [min_eq_left hab, max_eq_right hab]
    constructor <;> nlinarith
  · rw [min_eq_right hab, max_eq_left hab]
    constructor <;> nlinarith

/-- Broad-phase conservativity: a segment within exact contact range is
never rejected by the expanded-AABB test. -/
lemma within_aabb {bx bY r : ℝ} {a c : ℝ × ℝ}
    (h : withinRange bx bY r a c) : aabbPass bx bY r a c := by
  unfold withinRange at h
  unfold aabbPass
  push_neg
  obtain ⟨hx1, hx2⟩ :=
    closestPoint_x_mem bx bY a.1 a.2 c.1 c.2
  obtain ⟨hy1, hy2⟩ :=
    closestPoint_y_mem bx bY a.1 a.2 c.1 c.2
  have hax := abs_le_hypot (bx - (closestPointOnSegment bx bY a.1 a.2 c.1 c.2).x)
    (bY - (closestPointOnSegment bx bY a.1 a.2 c.1 c.2).y)
  have hay := abs_le_hypot' (bx - (closestPointOnSegment bx bY a.1 a.2 c.1 c.2).x)
    (bY - (closestPointOnSegment bx bY a.1 a.2 c.1 c.2).y)
  rw [abs_le] at hax hay
  refine ⟨by linarith [hax.1, hax.2], by linarith [hax.1, hax.2],
    by linarith [hay.1, hay.2], by linarith [hay.1, hay.2]⟩

/-- The broad-phase-guarded selection step agrees with the pure
distance-test step. -/
lemma segStep_eq_exact (bx bY r : ℝ) (best : Option Contact)
    (s : (ℝ × ℝ) × (ℝ × ℝ)) :
    segStep bx bY r best s
      = if withinRange bx bY r s.1 s.2 then some (mkContact bx bY s.1 s.2)
        else best := by
  unfold segStep
  by_cases hw : withinRange bx bY r s.1 s.2
  · rw [if_pos (within_aabb hw)]
  · by_cases ha : aabbPass bx bY r s.1 s.2
    · rw [if_pos ha]
    · rw [if_neg ha, if_neg hw]

/-- The pure distance-test fold selects the last element of the
qualifying sublist. -/
lemma foldlExact_lastQual (bx bY r : ℝ) :
    ∀ (l : List ((ℝ × ℝ) × (ℝ × ℝ))) (b0 : Option Contact),
      l.foldl
          (fun best s =>
            if withinRange bx bY r s.1 s.2 then
              some (mkContact bx bY s.1 s.2)
            else best) b0
        = match (l.filter fun s =>
              decide (withinRange bx bY r s.1 s.2)).getLast? with
          | some s => some (mkContact bx bY s.1 s.2)
          | none => b0 := by
  intro l
  induction l using List.reverseRecOn with
  | nil => intro b0; simp
  | append_singleton rest s ih =>
    intro b0
    rw [List.foldl_append, List.foldl_cons, List.foldl_nil, List.filter_append]
    by_cases hq : withinRange bx bY r s.1 s.2
    · rw [if_pos hq]
      have hfs : List.filter
          (fun s => decide (withinRange bx bY r s.1 s.2)) [s] = [s] := by
        simp [hq]
      rw [hfs, List.getLast?_concat]
    · rw [if_neg hq]
      have hfs : List.filter
          (fun s => decide (withinRange bx bY r s.1 s.2)) [s] = [] := by
        simp [hq]
      rw [hfs, List.append_nil, ih]

/-- Claim C10: the broad phase is conservative — every ball center within
exact contact range of a segment lies inside that segment's AABB expanded
by `r + 0.05` — and contact selection with the broad phase equals
selection by the exact distance test alone. -/
theorem claim_C10 :
    (∀ (bx bY r : ℝ) (a c : ℝ × ℝ),
        withinRange bx bY r a c → aabbPass bx bY r a c)
    ∧ ∀ (bx bY r : ℝ) (curves : List Curve),
        findBest bx bY r curves = findBestExact bx bY r curves := by
  refine ⟨fun bx bY r a c h => within_aabb h, fun bx bY r curves => ?_⟩
  unfold findBest findBestExact
  exact List.foldl_ext _ _ none fun best s _ => segStep_eq_exact bx bY r best s

/-- Claim C8: during one tick, the contact used for resolution is the
last segment of curve-then-segment iteration order that passes the exact
distance test — independent of which qualifying segment is nearest. -/
theorem claim_C8 :
    ∀ (bx bY r : ℝ) (curves : List Curve),
      findBest bx bY r curves
        = ((allSegs curves).filter fun s =>
              decide (withinRange bx bY r s.1 s.2)).getLast?.map
            fun s => mkContact bx bY s.1 s.2 := by
  intro bx bY r curves
  unfold findBest
  rw [List.foldl_ext (segStep bx bY r)
    (fun best s =>
      if withinRange bx bY r s.1 s.2 then some (mkContact bx bY s.1 s.2)
      else best)
    none fun best s _ => segStep_eq_exact bx bY r best s]
  rw [foldlExact_lastQual]
  cases hgl : ((allSegs curves).filter fun s =>
      decide (withinRange bx bY r s.1 s.2)).getLast? <;> simp

/-- Concrete instantiation of claim C8 on the demo scene. -/
theorem claim_C8_witness :
    findBest (97/50) (79/50) (1/5) [demoCurve]
      = ((allSegs [demoCurve]).filter fun s =>
            decide (withinRange (97/50) (79/50) (1/5) s.1 s.2)).getLast?.map
          fun s => mkContact (97/50) (79/50) s.1 s.2 :=
  claim_C8 (97/50) (79/50) (1/5) [demoCurve]

/-- The tangent returned by `normalize` is orthogonal to
`normalize (-t.2) t.1`. -/
lemma tangent_normal_orth (t1 t2 : ℝ) :
    t1 * (normalize (-t2) t1).1 + t2 * (normalize (-t2) t1).2 = 0 := by
  unfold normalize
  dsimp only
  split_ifs with h
  · simp
  · dsimp only
    ring

/-- Any contact built by the selection loop has its normal orthogonal to
its tangent. -/
lemma mkContact_orth (bx bY : ℝ) (a c : ℝ × ℝ) :
    (mkContact bx bY a c).tx * (mkContact bx bY a c).nx
      + (mkContact bx bY a c).ty * (mkContact bx bY a c).ny = 0 := by
  unfold mkContact
  dsimp only
  split_ifs with h <;> dsimp only
  · exact tangent_normal_orth _ _
  · have horth := tangent_normal_orth
      (normalize (c.1 - a.1) (c.2 - a.2)).1 (normalize (c.1 - a.1) (c.2 - a.2)).2
    linear_combination -horth

/-- The orthogonality holds for whatever contact `findBest` returns. -/
lemma findBest_orth {bx bY r : ℝ} {curves : List Curve} {ct : Contact}
    (h : findBest bx bY r curves = some ct) :
    ct.tx * ct.nx + ct.ty * ct.ny = 0 := by
  unfold findBest at h
  suffices H : ∀ (l : List ((ℝ × ℝ) × (ℝ × ℝ))) (b0 : Option Contact),
      (∀ ct0 : Contact, b0 = some ct0 →
        ct0.tx * ct0.nx + ct0.ty * ct0.ny = 0) →
      ∀ ct0 : Contact, l.foldl (segStep bx bY r) b0 = some ct0 →
        ct0.tx * ct0.nx + ct0.ty * ct0.ny = 0 by
    exact H _ none (by simp) ct h
  intro l
  induction l with
  | nil => intro b0 hb ct0 h0; exact hb ct0 h0
  | cons s rest ih =>
    intro b0 hb ct0 h0
    rw [List.foldl_cons] at h0
    refine ih _ ?_ ct0 h0
    intro ct1 h1
    unfold segStep at h1
    split_ifs at h1
    · simp only [Option.some_inj] at h1
      subst h1
      exact mkContact_orth bx bY s.1 s.2
    · exact hb _ h1
    · exact hb _ h1

/-- The snap (position resolution) leaves the velocity unchanged. -/
lemma snapPos_vel (b : Ball) (ct : Contact) :
    (snapPos b ct).vx = b.vx ∧ (snapPos b ct).vy = b.vy := by
  unfold snapPos
  dsimp only
  split_ifs <;> exact ⟨rfl, rfl⟩

/-- `updateBalls` maps the per-ball tick over the list. -/
lemma updateBalls_get (balls : List Ball) (dt gravity : ℝ) (bds : Bounds)
    (curves : List Curve) (i : Nat) (hi : i < balls.length)
    (hi2 : i < (updateBalls balls dt gravity bds curves).length) :
    (updateBalls balls dt gravity bds curves).get ⟨i, hi2⟩
      = tickBall (balls.get ⟨i, hi⟩) dt gravity bds curves := by
  simp [updateBalls]

/-- The single-ball tick through `updateBalls`. -/
lemma updateBalls_single (b : Ball) (dt gravity : ℝ) (bds : Bounds)
    (curves : List Curve)
    (h : 0 < (updateBalls [b] dt gravity bds curves).length) :
    (updateBalls [b] dt gravity bds curves).get ⟨0, h⟩
      = tickBall b dt gravity bds curves := by
  simp [updateBalls]

/-- Velocity after a contacted tick: tangential only, with the friction
factor applied to the post-gravity tangential speed plus the tangential
gravity kick. -/
lemma tickBall_contact_vel (b : Ball) (dt gravity : ℝ) (bds : Bounds)
    (curves : List Curve) (ct : Contact)
    (hoob : ¬ oobCond bds { b with vy := b.vy + gravity * dt })
    (hfind : findBest b.x b.y b.r curves = some ct) :
    (tickBall b dt gravity bds curves).vx
        = ((b.vx * ct.tx + (b.vy + gravity * dt) * ct.ty)
            + (0 * ct.tx + gravity * ct.ty) * dt) * 0.995 * ct.tx
      ∧ (tickBall b dt gravity bds curves).vy
        = ((b.vx * ct.tx + (b.vy + gravity * dt) * ct.ty)
            + (0 * ct.tx + gravity * ct.ty) * dt) * 0.995 * ct.ty := by
  unfold tickBall
  dsimp only
  rw [if_neg hoob, hfind]
  unfold integrate slideVel
  dsimp only
  rw [(snapPos_vel _ ct).1, (snapPos_vel _ ct).2]
  constructor <;> dsimp only <;> ring

/-- An out-of-bounds tick: gravity lands on `vy`, the flag is set, and
nothing else changes. -/
lemma tickBall_oob (b : Ball) (dt gravity : ℝ) (bds : Bounds)
    (curves : List Curve)
    (h : oobCond bds { b with vy := b.vy + gravity * dt }) :
    tickBall b dt gravity bds curves
      = { b with vy := b.vy + gravity * dt, oob := true } := by
  unfold tickBall
  dsimp only
  rw [if_pos h]

/-- Closest point of the demo ball on the demo segment. -/
lemma demo_closestPoint :
    closestPointOnSegment (97/50) (79/50) 0 0 4 3 = ⟨2, 3/2, 1/2⟩ := by
  unfold closestPointOnSegment clamp
  norm_num [min_def, max_def]

/-- The demo segment's unit tangent. -/
lemma demo_norm_tangent : normalize 4 3 = (4/5, 3/5) := by
  have h : hypot 4 3 = 5 := hypot_eval (by norm_num) (by norm_num)
  unfold normalize
  rw [h]
  norm_num

/-- The demo segment's unit perpendicular. -/
lemma demo_norm_normal : normalize (-(3/5)) (4/5) = (-(3/5), 4/5) := by
  have h : hypot (-(3/5)) (4/5) = 1 := hypot_eval (by norm_num) (by norm_num)
  unfold normalize
  rw [h]
  norm_num

/-- Distance from the demo ball to its closest point. -/
lemma demo_dist : hypot (97/50 - 2) (79/50 - 3/2) = 1/10 :=
  hypot_eval (by norm_num) (by norm_num)

/-- The same distance with the offsets reduced. -/
lemma demo_dist' : hypot (-(3/50)) (2/25) = 1/10 :=
  hypot_eval (by norm_num) (by norm_num)

/-- The contact record built for the demo segment. -/
lemma demo_mkContact :
    mkContact (97/50) (79/50) (0, 0) (4, 3) = demoContact := by
  unfold mkContact
  rw [show ((0, 0) : ℝ × ℝ).1 = 0 from rfl, show ((0, 0) : ℝ × ℝ).2 = 0 from rfl,
    show ((4, 3) : ℝ × ℝ).1 = 4 from rfl, show ((4, 3) : ℝ × ℝ).2 = 3 from rfl]
  rw [show (4 : ℝ) - 0 = 4 by norm_num, show (3 : ℝ) - 0 = 3 by norm_num]
  rw [demo_closestPoint, demo_norm_tangent]
  norm_num [demo_norm_normal, demo_dist, demo_dist', demoContact]

/-- The demo curve contributes exactly one segment. -/
lemma segs_demo : allSegs [demoCurve] = [((0, 0), (4, 3))] := by
  simp [allSegs, segPairs, demoCurve]

/-- The demo segment passes the exact contact test for the demo ball. -/
lemma demo_within : withinRange (97/50) (79/50) (1/5) (0, 0) (4, 3) := by
  unfold withinRange
  rw [show ((0, 0) : ℝ × ℝ).1 = 0 from rfl, show ((0, 0) : ℝ × ℝ).2 = 0 from rfl,
    show ((4, 3) : ℝ × ℝ).1 = 4 from rfl, show ((4, 3) : ℝ × ℝ).2 = 3 from rfl]
  rw [demo_closestPoint]
  rw [show ((⟨2, 3/2, 1/2⟩ : CPoint).x) = 2 from rfl,
    show ((⟨2, 3/2, 1/2⟩ : CPoint).y) = 3/2 from rfl]
  rw [demo_dist]
  norm_num

/-- `findBest` selects the demo contact on the demo scene. -/
lemma demo_findBest :
    findBest (97/50) (79/50) (1/5) [demoCurve] = some demoContact := by
  unfold findBest
  rw [segs_demo, List.foldl_cons, List.foldl_nil]
  rw [segStep_eq_exact, if_pos demo_within, demo_mkContact]

/-- The demo ball (gravity-kicked, `dt = 1/10`) is inside the world. -/
lemma demo_noob :
    ¬ oobCond demoBounds
      { demoBall with vy := demoBall.vy + -(49/5) * (1/10) } := by
  norm_num [oobCond, demoBall, demoBounds]

/-- `findBest` at the demo ball's position and radius. -/
lemma demo_findBest_ball :
    findBest demoBall.x demoBall.y demoBall.r [demoCurve]
      = some demoContact := by
  rw [show demoBall.x = 97/50 from rfl, show demoBall.y = 79/50 from rfl,
    show demoBall.r = 1/5 from rfl]
  exact demo_findBest

/-- Concrete instantiation of claim C10: the demo segment is within
exact contact range of the demo ball, hence inside the expanded AABB,
and the two selections coincide on the demo scene. -/
theorem claim_C10_witness :
    withinRange (97/50) (79/50) (1/5) (0, 0) (4, 3)
    ∧ aabbPass (97/50) (79/50) (1/5) (0, 0) (4, 3)
    ∧ findBest (97/50) (79/50) (1/5) [demoCurve]
        = findBestExact (97/50) (79/50) (1/5) [demoCurve] :=
  ⟨demo_within, claim_C10.1 (97/50) (79/50) (1/5) (0, 0) (4, 3) demo_within,
   claim_C10.2 (97/50) (79/50) (1/5) [demoCurve]⟩

/-- Claim C1 as stated is false on a sloped segment: at the 3-4-5 demo
contact with `dt = 1/10`, `gravity = -49/5`, the tangential speed after
the tick is not (tick-start tangential speed + tangential gravity
projection times `dt`) times `0.995` — gravity was already added to `vy`
before the contact branch, so its tangential projection enters twice. -/
theorem claim_C1_counterexample :
    ¬ (((updateBalls [demoBall] (1/10) (-(49/5)) demoBounds [demoCurve]).get
          ⟨0, by simp [updateBalls]⟩).vx * demoContact.tx
        + ((updateBalls [demoBall] (1/10) (-(49/5)) demoBounds
            [demoCurve]).get ⟨0, by simp [updateBalls]⟩).vy * demoContact.ty
      = ((demoBall.vx * demoContact.tx + demoBall.vy * demoContact.ty)
          + (0 * demoContact.tx + -(49/5) * demoContact.ty) * (1/10))
        * 0.995) := by
  rw [updateBalls_single demoBall (1/10) (-(49/5)) demoBounds [demoCurve]
    (by simp [updateBalls])]
  obtain ⟨h1, h2⟩ := tickBall_contact_vel demoBall (1/10) (-(49/5))
    demoBounds [demoCurve] demoContact demo_noob demo_findBest_ball
  rw [h1, h2]
  norm_num [demoBall, demoContact]

/-- Claim C1 (amended): for a ball that is not cut off by the
out-of-bounds check this tick and whose contact search succeeds, the
post-tick velocity lies along the contact tangent (the normal component
is discarded, never reflected), and the tangential speed is the
tangential component of the gravity-kicked velocity, plus the tangential
gravity projection times `dt`, times the friction factor `0.995` —
relative to the tick-start velocity, the tangential gravity projection
enters twice. -/
theorem claim_C1_amended :
    ∀ (balls : List Ball) (dt gravity : ℝ) (bds : Bounds)
      (curves : List Curve) (i : Nat) (hi : i < balls.length)
      (hi2 : i < (updateBalls balls dt gravity bds curves).length)
      (ct : Contact),
      ¬ oobCond bds { balls.get ⟨i, hi⟩ with
          vy := (balls.get ⟨i, hi⟩).vy + gravity * dt } →
      findBest (balls.get ⟨i, hi⟩).x (balls.get ⟨i, hi⟩).y
          (balls.get ⟨i, hi⟩).r curves = some ct →
      ((updateBalls balls dt gravity bds curves).get ⟨i, hi2⟩).vx
          = (((balls.get ⟨i, hi⟩).vx * ct.tx
              + ((balls.get ⟨i, hi⟩).vy + gravity * dt) * ct.ty)
            + (0 * ct.tx + gravity * ct.ty) * dt) * 0.995 * ct.tx
        ∧ ((updateBalls balls dt gravity bds curves).get ⟨i, hi2⟩).vy
          = (((balls.get ⟨i, hi⟩).vx * ct.tx
              + ((balls.get ⟨i, hi⟩).vy + gravity * dt) * ct.ty)
            + (0 * ct.tx + gravity * ct.ty) * dt) * 0.995 * ct.ty
        ∧ ((updateBalls balls dt gravity bds curves).get ⟨i, hi2⟩).vx * ct.nx
            + ((updateBalls balls dt gravity bds curves).get
                ⟨i, hi2⟩).vy * ct.ny
          = 0 := by
  intro balls dt gravity bds curves i hi hi2 ct hoob hfind
  rw [updateBalls_get balls dt gravity bds curves i hi hi2]
  obtain ⟨h1, h2⟩ := tickBall_contact_vel (balls.get ⟨i, hi⟩) dt gravity
    bds curves ct hoob hfind
  have horth := findBest_orth hfind
  refine ⟨h1, h2, ?_⟩
  rw [h1, h2]
  linear_combination ((((balls.get ⟨i, hi⟩).vx * ct.tx
      + ((balls.get ⟨i, hi⟩).vy + gravity * dt) * ct.ty)
    + (0 * ct.tx + gravity * ct.ty) * dt) * 0.995) * horth

/-- Concrete instantiation of the amended claim C1 on the demo scene. -/
theorem claim_C1_witness :
    (¬ oobCond demoBounds
        { demoBall with vy := demoBall.vy + -(49/5) * (1/10) })
    ∧ findBest demoBall.x demoBall.y demoBall.r [demoCurve]
        = some demoContact
    ∧ ((updateBalls [demoBall] (1/10) (-(49/5)) demoBounds
          [demoCurve]).get ⟨0, by simp [updateBalls]⟩).vx
        = ((demoBall.vx * demoContact.tx
            + (demoBall.vy + -(49/5) * (1/10)) * demoContact.ty)
          + (0 * demoContact.tx + -(49/5) * demoContact.ty) * (1/10))
          * 0.995 * demoContact.tx :=
  ⟨demo_noob, demo_findBest_ball,
    (claim_C1_amended [demoBall] (1/10) (-(49/5)) demoBounds [demoCurve] 0
      (by simp) (by simp [updateBalls]) demoContact demo_noob
      demo_findBest_ball).1⟩

/-- Claim C2 as stated is false: a ball whose out-of-bounds flag is
already set (and which is indeed out of bounds, the only way the physics
produces the flag) still has gravity added to its `vy` by every further
tick, because the gravity update precedes the bounds check. -/
theorem claim_C2_counterexample :
    demoBallOut.oob = true ∧
    ¬ (((updateBalls [demoBallOut] (1/10) (-(49/5)) demoBounds []).get
          ⟨0, by simp [updateBalls]⟩).vy = demoBallOut.vy) := by
  refine ⟨rfl, ?_⟩
  rw [updateBalls_get [demoBallOut] (1/10) (-(49/5)) demoBounds [] 0
    (by simp) (by simp [updateBalls])]
  rw [tickBall_oob _ _ _ _ _ (by norm_num [oobCond, demoBallOut, demoBounds])]
  norm_num [demoBallOut]

/-- Claim C2 (amended): when the (gravity-kicked) ball is out of bounds,
the tick changes nothing but `vy` — which still receives `gravity·dt`
before the bounds check — and the flag, which is set.  Since the
position never changes while out of bounds, this describes every tick
from the flag-setting one onward. -/
theorem claim_C2_amended :
    ∀ (balls : List Ball) (dt gravity : ℝ) (bds : Bounds)
      (curves : List Curve) (i : Nat) (hi : i < balls.length)
      (hi2 : i < (updateBalls balls dt gravity bds curves).length),
      oobCond bds { balls.get ⟨i, hi⟩ with
          vy := (balls.get ⟨i, hi⟩).vy + gravity * dt } →
      (updateBalls balls dt gravity bds curves).get ⟨i, hi2⟩
        = { balls.get ⟨i, hi⟩ with
            vy := (balls.get ⟨i, hi⟩).vy + gravity * dt, oob := true } := by
  intro balls dt gravity bds curves i hi hi2 h
  rw [updateBalls_get balls dt gravity bds curves i hi hi2]
  exact tickBall_oob _ _ _ _ _ h

/-- Concrete instantiation of the amended claim C2 at the flagged
out-of-bounds demo ball. -/
theorem claim_C2_witness :
    oobCond demoBounds
        { demoBallOut with vy := demoBallOut.vy + -(49/5) * (1/10) }
    ∧ (updateBalls [demoBallOut] (1/10) (-(49/5)) demoBounds []).get
          ⟨0, by simp [updateBalls]⟩
        = { demoBallOut with
            vy := demoBallOut.vy + -(49/5) * (1/10), oob := true } :=
  ⟨by norm_num [oobCond, demoBallOut, demoBounds],
   claim_C2_amended [demoBallOut] (1/10) (-(49/5)) demoBounds [] 0
     (by simp) (by simp [updateBalls])
     (by norm_num [oobCond, demoBallOut, demoBounds])⟩

/-- Moving perpendicularly to the segment does not change the closest
point. -/
lemma closestPoint_shift (px py ax ay cx cy nx ny k : ℝ)
    (hperp : nx * (cx - ax) + ny * (cy - ay) = 0) :
    closestPointOnSegment (px + k * nx) (py + k * ny) ax ay cx cy
      = closestPointOnSegment px py ax ay cx cy := by
  unfold closestPointOnSegment
  dsimp only
  have hdot : (px + k * nx - ax) * (cx - ax) + (py + k * ny - ay) * (cy - ay)
      = (px - ax) * (cx - ax) + (py - ay) * (cy - ay) := by
    linear_combination k * hperp
  rw [hdot]

/-- Claim C7 (amended): the penetration-resolution step translates the
ball along the contact normal so that its distance to the (unchanged)
closest point on the segment is `r + 1e-4` — just above the surface, not
exactly `r` — whenever the contact data is consistent: `q` is the closest
point, the ball-to-`q` offset is `dist` times the unit normal, and the
normal is perpendicular to the segment. -/
theorem claim_C7_amended :
    ∀ (b : Ball) (ct : Contact),
      (closestPointOnSegment b.x b.y ct.ax ct.ay ct.cx ct.cy).x = ct.qx →
      (closestPointOnSegment b.x b.y ct.ax ct.ay ct.cx ct.cy).y = ct.qy →
      b.x - ct.qx = ct.dist * ct.nx →
      b.y - ct.qy = ct.dist * ct.ny →
      ct.nx ^ 2 + ct.ny ^ 2 = 1 →
      ct.nx * (ct.cx - ct.ax) + ct.ny * (ct.cy - ct.ay) = 0 →
      0 ≤ b.r →
      (closestPointOnSegment (snapPos b ct).x (snapPos b ct).y
            ct.ax ct.ay ct.cx ct.cy
          = closestPointOnSegment b.x b.y ct.ax ct.ay ct.cx ct.cy)
        ∧ hypot ((snapPos b ct).x - ct.qx) ((snapPos b ct).y - ct.qy)
          = b.r + 1e-4 := by
  intro b ct hqx hqy halx haly hunit hperp hr
  have hk : ∃ k : ℝ, (snapPos b ct).x = b.x + k * ct.nx
      ∧ (snapPos b ct).y = b.y + k * ct.ny
      ∧ ct.dist + k = b.r + 1e-4 := by
    unfold snapPos
    dsimp only
    split_ifs with hpen
    · exact ⟨b.r - ct.dist + 1e-4, by dsimp only; ring, by dsimp only; ring,
        by ring⟩
    · refine ⟨b.r + 1e-4 - ct.dist, ?_, ?_, by ring⟩
      · dsimp only
        linear_combination (-1 : ℝ) * halx
      · dsimp only
        linear_combination (-1 : ℝ) * haly
  obtain ⟨k, hkx, hky, hkd⟩ := hk
  constructor
  · rw [hkx, hky]
    exact closestPoint_shift b.x b.y ct.ax ct.ay ct.cx ct.cy ct.nx ct.ny k
      hperp
  · rw [hkx, hky]
    have h1 : b.x + k * ct.nx - ct.qx = (b.r + 1e-4) * ct.nx := by
      linear_combination halx + ct.nx * hkd
    have h2 : b.y + k * ct.ny - ct.qy = (b.r + 1e-4) * ct.ny := by
      linear_combination haly + ct.ny * hkd
    rw [h1, h2]
    have hsq : ((b.r + 1e-4) * ct.nx) ^ 2 + ((b.r + 1e-4) * ct.ny) ^ 2
        = (b.r + 1e-4) ^ 2 := by
      have hfac : ((b.r + 1e-4) * ct.nx) ^ 2 + ((b.r + 1e-4) * ct.ny) ^ 2
          = (b.r + 1e-4) ^ 2 * (ct.nx ^ 2 + ct.ny ^ 2) := by ring
      rw [hfac, hunit, mul_one]
    exact hypot_eval (by norm_num; linarith) hsq

/-- Concrete instantiation of the amended claim C7 at the demo
penetrating contact. -/
theorem claim_C7_witness :
    ((closestPointOnSegment demoBall.x demoBall.y demoContact.ax
        demoContact.ay demoContact.cx demoContact.cy).x = demoContact.qx)
    ∧ (demoBall.x - demoContact.qx = demoContact.dist * demoContact.nx)
    ∧ hypot ((snapPos demoBall demoContact).x - demoContact.qx)
          ((snapPos demoBall demoContact).y - demoContact.qy)
        = demoBall.r + 1e-4 := by
  have hqx : (closestPointOnSegment demoBall.x demoBall.y demoContact.ax
      demoContact.ay demoContact.cx demoContact.cy).x = demoContact.qx := by
    rw [show demoBall.x = 97/50 from rfl, show demoBall.y = 79/50 from rfl,
      show demoContact.ax = 0 from rfl, show demoContact.ay = 0 from rfl,
      show demoContact.cx = 4 from rfl, show demoContact.cy = 3 from rfl,
      demo_closestPoint]
    rfl
  have hqy : (closestPointOnSegment demoBall.x demoBall.y demoContact.ax
      demoContact.ay demoContact.cx demoContact.cy).y = demoContact.qy := by
    rw [show demoBall.x = 97/50 from rfl, show demoBall.y = 79/50 from rfl,
      show demoContact.ax = 0 from rfl, show demoContact.ay = 0 from rfl,
      show demoContact.cx = 4 from rfl, show demoContact.cy = 3 from rfl,
      demo_closestPoint]
    rfl
  have halx : demoBall.x - demoContact.qx
      = demoContact.dist * demoContact.nx := by
    norm_num [demoBall, demoContact]
  have haly : demoBall.y - demoContact.qy
      = demoContact.dist * demoContact.ny := by
    norm_num [demoBall, demoContact]
  have hunit : demoContact.nx ^ 2 + demoContact.ny ^ 2 = 1 := by
    norm_num [demoContact]
  have hperp : demoContact.nx * (demoContact.cx - demoContact.ax)
      + demoContact.ny * (demoContact.cy - demoContact.ay) = 0 := by
    norm_num [demoContact]
  have hr : (0 : ℝ) ≤ demoBall.r := by norm_num [demoBall]
  exact ⟨hqx, halx,
    (claim_C7_amended demoBall demoContact hqx hqy halx haly hunit hperp
      hr).2⟩

/-- The full demo tick at `dt = 0` (gravity contributes nothing, the
slide update zeroes the resting velocity, integration moves nothing):
only the snap displacement remains. -/
lemma demo_tick0 :
    tickBall demoBall 0 (-(49/5)) demoBounds [demoCurve]
      = ⟨93997/50000, 20751/12500, 0, 0, 1/5, false, none, false⟩ := by
  norm_num [tickBall, integrate, slideVel, snapPos, oobCond, demoBounds,
    demoBall, demo_findBest, demoContact]

/-- `demoSnapped` in closed form. -/
lemma demoSnapped_eval :
    demoSnapped = ⟨93997/50000, 20751/12500, 0, 0, 1/5, false, none, false⟩ := by
  unfold demoSnapped updateBalls
  simp only [List.map_cons, List.map_nil, List.headI]
  exact demo_tick0

/-- Closest point on the demo segment after the snap: unchanged. -/
lemma demo_closestPoint2 :
    closestPointOnSegment (93997/50000) (20751/12500) 0 0 4 3
      = ⟨2, 3/2, 1/2⟩ := by
  unfold closestPointOnSegment clamp
  norm_num [min_def, max_def]

/-- Distance from the snapped ball to the closest point: `0.2001`. -/
lemma demo_dist2 :
    hypot (93997/50000 - 2) (20751/12500 - 3/2) = 2001/10000 :=
  hypot_eval (by norm_num) (by norm_num)

/-- Claim C7 as stated is false: after the resolution step (isolated by a
`dt = 0` tick of `updateBalls` on the penetrating demo ball) the distance
from the ball's center to the closest point on the segment is
`r + 1e-4 = 0.2001`, not the radius `0.2` exactly. -/
theorem claim_C7_counterexample :
    hypot (demoSnapped.x
          - (closestPointOnSegment demoSnapped.x demoSnapped.y 0 0 4 3).x)
        (demoSnapped.y
          - (closestPointOnSegment demoSnapped.x demoSnapped.y 0 0 4 3).y)
      ≠ demoBall.r := by
  rw [demoSnapped_eval]
  rw [show (⟨93997/50000, 20751/12500, 0, 0, 1/5, false, none, false⟩
      : Ball).x = 93997/50000 from rfl]
  rw [show (⟨93997/50000, 20751/12500, 0, 0, 1/5, false, none, false⟩
      : Ball).y = 20751/12500 from rfl]
  rw [demo_closestPoint2]
  rw [show ((⟨2, 3/2, 1/2⟩ : CPoint)).x = 2 from rfl,
    show ((⟨2, 3/2, 1/2⟩ : CPoint)).y = 3/2 from rfl]
  rw [demo_dist2]
  norm_num [demoBall]

/-- `checkStarCollection` preserves the number of stars. -/
lemma csc_stars_length :
    ∀ (stars : List Star) (balls : List Ball) (radius now : ℝ),
      (checkStarCollection balls stars radius now).stars.length
        = stars.length := by
  intro stars
  induction stars with
  | nil => intro balls radius now; rfl
  | cons s rest ih =>
    intro balls radius now
    unfold checkStarCollection
    dsimp only
    split_ifs with hc
    · simp [ih]
    · rcases hscan : collectScan s radius now balls with _ | balls2 <;>
        simp [hscan, ih]

/-- An already-collected star is returned unchanged, whatever the balls
do. -/
lemma csc_get_collected :
    ∀ (stars : List Star) (balls : List Ball) (radius now : ℝ)
      (i : Nat) (s0 : Star),
      stars.get? i = some s0 → s0.collected = true →
      (checkStarCollection balls stars radius now).stars.get? i = some s0 := by
  intro stars
  induction stars with
  | nil => intro balls radius now i s0 h; simp at h
  | cons s rest ih =>
    intro balls radius now i s0 hget hcol
    rcases i with _ | i
    · rw [List.get?_cons_zero] at hget
      have hs : s = s0 := by simpa using hget
      subst hs
      unfold checkStarCollection
      dsimp only
      rw [if_pos hcol]
      rfl
    · rw [List.get?_cons_succ] at hget
      unfold checkStarCollection
      dsimp only
      split_ifs with hc
      · rw [List.get?_cons_succ]
        exact ih balls radius now i s0 hget hcol
      · rcases hscan : collectScan s radius now balls with _ | balls2 <;>
          simp only [hscan]
        · rw [List.get?_cons_succ]
          exact ih balls radius now i s0 hget hcol
        · rw [List.get?_cons_succ]
          exact ih balls2 radius now i s0 hget hcol

/-- Every already-collected star contributes to the returned count. -/
lemma csc_count_ge :
    ∀ (stars : List Star) (balls : List Ball) (radius now : ℝ),
      stars.countP (fun s => s.collected)
        ≤ (checkStarCollection balls stars radius now).count := by
  intro stars
  induction stars with
  | nil => intro balls radius now; simp [checkStarCollection]
  | cons s rest ih =>
    intro balls radius now
    unfold checkStarCollection
    dsimp only
    split_ifs with hc
    · rw [List.countP_cons_of_pos _ _ (by simpa using hc)]
      exact Nat.succ_le_succ (ih balls radius now)
    · rw [List.countP_cons_of_neg _ _ (by simpa using hc)]
      rcases hscan : collectScan s radius now balls with _ | balls2 <;>
        simp only [hscan]
      · exact ih balls radius now
      · exact le_trans (ih balls2 radius now) (Nat.le_succ _)

/-- Claim C9: for every star already collected, `checkStarCollection`
never resets the flag — the star record is returned unchanged, still
collected — and the star is counted in the result, regardless of the
balls passed in. -/
theorem claim_C9 :
    ∀ (balls : List Ball) (stars : List Star) (radius now : ℝ)
      (i : Nat) (hi : i < stars.length)
      (hi2 : i < (checkStarCollection balls stars radius now).stars.length),
      (stars.get ⟨i, hi⟩).collected = true →
      (checkStarCollection balls stars radius now).stars.get ⟨i, hi2⟩
          = stars.get ⟨i, hi⟩
        ∧ ((checkStarCollection balls stars radius now).stars.get
            ⟨i, hi2⟩).collected = true
        ∧ stars.countP (fun s => s.collected)
          ≤ (checkStarCollection balls stars radius now).count := by
  intro balls stars radius now i hi hi2 hcol
  have hq := csc_get_collected stars balls radius now i (stars.get ⟨i, hi⟩)
    (List.get?_eq_get hi) hcol
  have hget : (checkStarCollection balls stars radius now).stars.get ⟨i, hi2⟩
      = stars.get ⟨i, hi⟩ := by
    have hsome := List.get?_eq_get hi2
    rw [hq] at hsome
    exact (Option.some_inj.mp hsome).symm
  exact ⟨hget, by rw [hget]; exact hcol, csc_count_ge stars balls radius now⟩

/-- Concrete instantiation of claim C9: one already-collected star, no
balls. -/
theorem claim_C9_witness :
    (([demoStar].get ⟨0, by simp⟩).collected = true)
    ∧ (checkStarCollection [] [demoStar] (3/10) 0).stars.get
          ⟨0, by rw [csc_stars_length]; simp⟩
        = [demoStar].get ⟨0, by simp⟩
    ∧ [demoStar].countP (fun s => s.collected)
        ≤ (checkStarCollection [] [demoStar] (3/10) 0).count :=
  ⟨rfl,
   (claim_C9 [] [demoStar] (3/10) 0 0 (by simp)
     (by rw [csc_stars_length]; simp) rfl).1,
   (claim_C9 [] [demoStar] (3/10) 0 0 (by simp)
     (by rw [csc_stars_length]; simp) rfl).2.2⟩

end PhysicsProofs

end GraphGame
